import Mathlib

/-!
Shallow embedding of the container packing & stacking engine of an AR
box-stacking application.  The source consists of:

* `box.js` — box dimensions, volume, volume-threshold classifier;
* `stacking.js` — colour-weight stacking rule (`canStack`, `getStackError`)
  and the grid column resolver (`getStackY`, `getTopBox`);
* `cubagem.js` — the grid pallet engine (`CubagemModule`) and the
  open-footprint truck engine (`PickingModule`, with `_findTopAt`,
  `_updatePreview`, `placeBox`);
* `picking.js` — the grid truck engine (grid `PickingModule`).

JS numbers are modelled as rationals (the logic uses only field operations
and comparisons); mesh/DOM side effects are dropped, state that the engine
logic reads or writes is modelled explicitly.
-/

namespace Trabalho2

attribute [local semireducible] Rat.inv Rat.mul Rat.add Rat.sub

/-! ## box.js : thresholds, dimension range, colours, classifier -/

/-- Constant `VOLUME_HIGH = 0.05` — above this a box is red. -/
def VOLUME_HIGH : ℚ := 5 / 100

/-- Constant `VOLUME_MID = 0.015` — between this and `VOLUME_HIGH` green, below blue. -/
def VOLUME_MID : ℚ := 15 / 1000

/-- Constant `DIM_MIN = 0.1`. -/
def DIM_MIN : ℚ := 1 / 10

/-- Constant `DIM_MAX = 0.5`. -/
def DIM_MAX : ℚ := 5 / 10

/-- Enumeration `BoxColor` from `box.js`. -/
inductive BoxColor : Type
  | red
  | green
  | blue
  deriving DecidableEq, Repr

/-- Function `classifyVolume(volume)` from `box.js`. -/
def classifyVolume (volume : ℚ) : BoxColor :=
  if volume > VOLUME_HIGH then .red
  else if volume > VOLUME_MID then .green
  else .blue

/-- Function `randomDim()` from `box.js`; `r` stands for the `Math.random()` draw. -/
def randomDim (r : ℚ) : ℚ :=
  DIM_MIN + r * (DIM_MAX - DIM_MIN)

/-- A `Box` as built by the `Box` constructor: the three dimensions plus the
fields `volume` and `colorCategory` that the constructor stores. -/
structure Box : Type where
  width : ℚ
  height : ℚ
  depth : ℚ
  volume : ℚ
  colorCategory : BoxColor
  deriving DecidableEq, Repr

/-- The `Box(width, height, depth)` constructor.  A zero (or omitted)
argument is falsy in JS, so the constructor substitutes `randomDim()`;
`r1 r2 r3` stand for the three independent `Math.random()` draws. -/
def mkBox (width height depth r1 r2 r3 : ℚ) : Box :=
  let w := if width = 0 then randomDim r1 else width
  let h := if height = 0 then randomDim r2 else height
  let d := if depth = 0 then randomDim r3 else depth
  { width := w, height := h, depth := d,
    volume := w * h * d,
    colorCategory := classifyVolume (w * h * d) }

/-- Method `getColorName()` from `box.js`. -/
def getColorName : BoxColor → String
  | .red => "Vermelha"
  | .green => "Verde"
  | .blue => "Azul"

/-! ## stacking.js : colour weights, stacking rule, grid resolver -/

/-- Table `COLOR_WEIGHT` from `stacking.js`. -/
def COLOR_WEIGHT : BoxColor → Nat
  | .red => 3
  | .green => 2
  | .blue => 1

/-- Function `canStack(newBox, targetBox)`; a `null` target is `none`. -/
def canStack (newBox : Box) (targetBox : Option Box) : Bool :=
  match targetBox with
  | none => true
  | some t => COLOR_WEIGHT newBox.colorCategory ≤ COLOR_WEIGHT t.colorCategory

/-- Function `getStackError(newBox, targetBox)`; `none` models the `null` return.
(When `targetBox` is `null`, `canStack` returns `true`, so the source
returns `null` without reading `targetBox`.) -/
def getStackError (newBox : Box) (targetBox : Option Box) : Option String :=
  match targetBox with
  | none => none
  | some t =>
      if canStack newBox (some t) then none
      else some ("Caixa " ++ getColorName newBox.colorCategory ++
        " não pode ser empilhada sobre caixa " ++
        getColorName t.colorCategory ++ "!")

/-- Function `getStackY(newBox, stackedBoxes, baseY)`: the loop accumulates the
heights of the stacked boxes onto `baseY`, then adds half the new box. -/
def getStackY (newBox : Box) (stackedBoxes : List Box) (baseY : ℚ) : ℚ :=
  (stackedBoxes.foldl (fun y b => y + b.height) baseY) + newBox.height / 2

/-- Function `getTopBox(stackedBoxes)`: `null` when empty, else the element at
index `length - 1`. -/
def getTopBox (stackedBoxes : List Box) : Option Box :=
  if stackedBoxes.length = 0 then none
  else stackedBoxes.get? (stackedBoxes.length - 1)

/-- Result record of the `placeBox` methods: `{ success, message }`. -/
structure PlaceResult : Type where
  success : Bool
  message : String
  deriving DecidableEq, Repr

/-! ## cubagem.js, open-footprint `PickingModule` (truck engine)

State observed by the engine logic: `truckPlaced`, `placedBoxes`
(entries `{ box, mesh }`, of which the logic reads `mesh.position`),
`currentBox` together with its mesh position, `previewValid`, `boxCount`. -/

/-- An entry of `placedBoxes`: the box and its committed mesh position. -/
structure PlacedBox : Type where
  box : Box
  x : ℚ
  y : ℚ
  z : ℚ
  deriving DecidableEq, Repr

namespace PickingOF

/-- Field `innerHalfX = 0.95`. -/
def innerHalfX : ℚ := 95 / 100

/-- Field `innerHalfZ = 0.55`. -/
def innerHalfZ : ℚ := 55 / 100

/-- Field `floorY = 0.03`. -/
def floorY : ℚ := 3 / 100

/-- Field `maxHeight = 0.8`. -/
def maxHeight : ℚ := 8 / 10

/-- One iteration of the `for (const { box, mesh } of this.placedBoxes)`
loop body of `_findTopAt`, acting on the accumulator `(topBox, topSurface)`. -/
def topStep (newBox : Box) (x z : ℚ) (acc : Option Box × ℚ) (p : PlacedBox) :
    Option Box × ℚ :=
  let dx := |p.x - x|
  let dz := |p.z - z|
  let overlapX := (p.box.width + newBox.width) / 2
  let overlapZ := (p.box.depth + newBox.depth) / 2
  if dx < overlapX ∧ dz < overlapZ then
    let boxTop := p.y + p.box.height / 2
    if acc.2 < boxTop then (some p.box, boxTop) else acc
  else acc

/-- Method `_findTopAt(x, z, newBox)`: starts from `(null, floorY)`, folds
`topStep` over `placedBoxes`, and returns `{ topBox, stackY }` with
`stackY = topSurface + newBox.height / 2`. -/
def findTopAt (placed : List PlacedBox) (x z : ℚ) (newBox : Box) :
    Option Box × ℚ :=
  let r := placed.foldl (topStep newBox x z) (none, floorY)
  (r.1, r.2 + newBox.height / 2)

/-- State of the open-footprint `PickingModule`.  `posX/posY/posZ` model
`currentBox.mesh.position` (a fresh mesh sits at the origin). -/
structure State : Type where
  truckPlaced : Bool
  placedBoxes : List PlacedBox
  currentBox : Option Box
  posX : ℚ
  posY : ℚ
  posZ : ℚ
  previewValid : Bool
  boxCount : Nat
  deriving DecidableEq, Repr

/-- The constructor's initial state. -/
def initState : State :=
  { truckPlaced := false, placedBoxes := [], currentBox := none,
    posX := 0, posY := 0, posZ := 0, previewValid := false, boxCount := 0 }

/-- Method `placeTruck(position)`: no-op when already placed. -/
def placeTruck (s : State) : State :=
  if s.truckPlaced then s else { s with truckPlaced := true }

/-- Method `generateNewBox()`: discards the current box's mesh and installs
box `b` (the fresh random box) as `currentBox`, with `previewValid = false`
and a fresh mesh at the origin. -/
def generateNewBox (b : Box) (s : State) : State :=
  { s with currentBox := some b, posX := 0, posY := 0, posZ := 0,
           previewValid := false }

/-- The x-clamp of `_updatePreview`:
`Math.max(-innerHalfX + hw, Math.min(innerHalfX - hw, localX))`. -/
def clampX (b : Box) (localX : ℚ) : ℚ :=
  max (-innerHalfX + b.width / 2) (min (innerHalfX - b.width / 2) localX)

/-- The z-clamp of `_updatePreview`. -/
def clampZ (b : Box) (localZ : ℚ) : ℚ :=
  max (-innerHalfZ + b.depth / 2) (min (innerHalfZ - b.depth / 2) localZ)

/-- Methods `updatePreviewFromWorld` / `_updatePreview` with the world-to-local
conversion abstracted away: guard, clamp, resolve support, check height,
set the mesh position and `previewValid`. -/
def updatePreview (localX localZ : ℚ) (s : State) : State :=
  match s.currentBox with
  | none => s
  | some box =>
    if s.truckPlaced then
      let x := clampX box localX
      let z := clampZ box localZ
      let r := findTopAt s.placedBoxes x z box
      let boxTop := r.2 + box.height / 2
      let exceedsHeight : Bool := decide (boxTop > maxHeight)
      let valid := canStack box r.1 && !exceedsHeight
      { s with posX := x, posY := r.2, posZ := z, previewValid := valid }
    else s

/-- Method `placeBox()` of the open-footprint `PickingModule`. -/
def placeBox (s : State) : State × PlaceResult :=
  match s.currentBox with
  | none => (s, { success := false, message := "Gere uma caixa primeiro!" })
  | some box =>
    if !s.truckPlaced then
      (s, { success := false, message := "Gere uma caixa primeiro!" })
    else if !s.previewValid then
      let r := findTopAt s.placedBoxes s.posX s.posZ box
      let colorError := getStackError box r.1
      let exceedsHeight : Bool := decide (s.posY + box.height / 2 > maxHeight)
      if exceedsHeight then
        (s, { success := false, message := "Caixa excede a altura da caçamba!" })
      else
        (s, { success := false,
              message := colorError.getD "Posicionamento inválido!" })
    else
      ({ s with
          placedBoxes := s.placedBoxes ++ [⟨box, s.posX, s.posY, s.posZ⟩],
          boxCount := s.boxCount + 1,
          currentBox := none },
       { success := true,
         message := "Caixa carregada! (Total: " ++ toString (s.boxCount + 1) ++ ")" })

end PickingOF

/-! ## cubagem.js, `CubagemModule` (grid pallet engine) -/

namespace Cubagem

/-- The 3×2 grid of `_getStackPositions` yields 6 columns. -/
def numStacks : Nat := 6

/-- State of `CubagemModule` as read by its placement logic. -/
structure State : Type where
  palletPlaced : Bool
  stacks' : List (List Box)  -- `this.stacks` (the bare name is reserved in this Lean setup)
  currentBox : Option Box
  boxCount : Nat
  selectedStackIndex : Nat
  deriving DecidableEq, Repr

/-- The constructor's initial state. -/
def initState : State :=
  { palletPlaced := false, stacks' := [], currentBox := none,
    boxCount := 0, selectedStackIndex := 0 }

/-- Method `placePallet(position)`: no-op when already placed; otherwise
pushes one empty stack per grid position. -/
def placePallet (s : State) : State :=
  if s.palletPlaced then s
  else { s with palletPlaced := true,
                stacks' := s.stacks' ++ List.replicate numStacks [] }

/-- Method `generateNewBox()`: installs box `b` as the current box
(preview positioning touches only mesh state). -/
def generateNewBox (b : Box) (s : State) : State :=
  { s with currentBox := some b }

/-- Method `cycleStack()`: advances the selected column modulo the count. -/
def cycleStack (s : State) : State :=
  if s.palletPlaced then
    { s with selectedStackIndex := (s.selectedStackIndex + 1) % s.stacks'.length }
  else s

/-- Method `placeBox()` of `CubagemModule`. -/
def placeBox (s : State) : State × PlaceResult :=
  match s.currentBox with
  | none => (s, { success := false, message := "Gere uma caixa primeiro!" })
  | some box =>
    if !s.palletPlaced then
      (s, { success := false, message := "Gere uma caixa primeiro!" })
    else
      let stack := s.stacks'.getD s.selectedStackIndex []
      let topBox := getTopBox stack
      match getStackError box topBox with
      | some error => (s, { success := false, message := error })
      | none =>
        ({ s with
            stacks' := s.stacks'.set s.selectedStackIndex (stack ++ [box]),
            boxCount := s.boxCount + 1,
            currentBox := none },
         { success := true,
           message := "Caixa empilhada! (Coluna " ++
             toString (s.selectedStackIndex + 1) ++ ", Total: " ++
             toString (s.boxCount + 1) ++ ")" })

/-- Method `reset()`. -/
def resetState (_s : State) : State := initState

/-- The states reachable from the initial `CubagemModule` state by the
public operations (the box fed to `generateNewBox` is arbitrary, covering
every random draw). -/
inductive Reach : State → Prop
  | start : Reach initState
  | container {s} : Reach s → Reach (placePallet s)
  | generate {s} (b : Box) : Reach s → Reach (generateNewBox b s)
  | cycle {s} : Reach s → Reach (cycleStack s)
  | commit {s} : Reach s → Reach (placeBox s).1
  | restart {s} : Reach s → Reach (resetState s)

end Cubagem

/-! ## picking.js, grid `PickingModule` (grid truck engine) -/

namespace PickingGrid

/-- The 4×2 grid of `_initStackPositions` yields 8 columns. -/
def numStacks : Nat := 8

/-- Field `truckHeight = 0.8`. -/
def truckHeight : ℚ := 8 / 10

/-- Field `truckWallThickness = 0.03`, the `baseY` used for stacking. -/
def truckWallThickness : ℚ := 3 / 100

/-- State of the grid `PickingModule` as read by its placement logic. -/
structure State : Type where
  truckPlaced : Bool
  stacks' : List (List Box)  -- `this.stacks` (the bare name is reserved in this Lean setup)
  currentBox : Option Box
  boxCount : Nat
  selectedStackIndex : Nat
  deriving DecidableEq, Repr

/-- The constructor's initial state. -/
def initState : State :=
  { truckPlaced := false, stacks' := [], currentBox := none,
    boxCount := 0, selectedStackIndex := 0 }

/-- Method `placeTruck(position)`: no-op when already placed; otherwise
pushes one empty stack per grid position. -/
def placeTruck (s : State) : State :=
  if s.truckPlaced then s
  else { s with truckPlaced := true,
                stacks' := s.stacks' ++ List.replicate numStacks [] }

/-- Method `generateNewBox()`: installs box `b` as the current box. -/
def generateNewBox (b : Box) (s : State) : State :=
  { s with currentBox := some b }

/-- Method `cycleStack()`: advances the selected column modulo the count. -/
def cycleStack (s : State) : State :=
  if s.truckPlaced then
    { s with selectedStackIndex := (s.selectedStackIndex + 1) % s.stacks'.length }
  else s

/-- Method `placeBox()` of the grid `PickingModule` (colour rule, then
truck-height rule, then commit). -/
def placeBox (s : State) : State × PlaceResult :=
  match s.currentBox with
  | none => (s, { success := false, message := "Gere uma caixa primeiro!" })
  | some box =>
    if !s.truckPlaced then
      (s, { success := false, message := "Gere uma caixa primeiro!" })
    else
      let stack := s.stacks'.getD s.selectedStackIndex []
      let topBox := getTopBox stack
      match getStackError box topBox with
      | some error => (s, { success := false, message := error })
      | none =>
        let yPos := getStackY box stack truckWallThickness
        if yPos + box.height / 2 > truckHeight then
          (s, { success := false,
                message := "Caixa excede a altura da caçamba! Escolha outra coluna." })
        else
          ({ s with
              stacks' := s.stacks'.set s.selectedStackIndex (stack ++ [box]),
              boxCount := s.boxCount + 1,
              currentBox := none },
           { success := true,
             message := "Caixa carregada! (Posição " ++
               toString (s.selectedStackIndex + 1) ++ ", Total: " ++
               toString (s.boxCount + 1) ++ ")" })

/-- Method `reset()`. -/
def resetState (_s : State) : State := initState

/-- The states reachable from the initial grid `PickingModule` state by the
public operations. -/
inductive Reach : State → Prop
  | start : Reach initState
  | container {s} : Reach s → Reach (placeTruck s)
  | generate {s} (b : Box) : Reach s → Reach (generateNewBox b s)
  | cycle {s} : Reach s → Reach (cycleStack s)
  | commit {s} : Reach s → Reach (placeBox s).1
  | restart {s} : Reach s → Reach (resetState s)

end PickingGrid

/-- A column is correctly ordered when, bottom to top, each box's colour
weight is at most the weight of the box directly beneath it. -/
def orderedStack (l : List Box) : Prop :=
  List.Chain' (fun a b => COLOR_WEIGHT b.colorCategory ≤ COLOR_WEIGHT a.colorCategory) l

/-- Every column of a stack list is correctly ordered. -/
def stacksOrdered (ls : List (List Box)) : Prop :=
  ∀ l ∈ ls, orderedStack l

/-! ## Specification-side descriptions of the open-footprint resolver

These re-state, in the spec's vocabulary, what `_findTopAt` is claimed to
compute, so they can be compared with the source-derived `findTopAt`. -/

/-- Spec wording: a placement overlaps the candidate footprint when, on each
horizontal axis, the difference of centers is strictly less than the sum of
the half-extents. -/
def overlapSpec (newBox : Box) (x z : ℚ) (p : PlacedBox) : Prop :=
  |p.x - x| < (p.box.width + newBox.width) / 2 ∧
  |p.z - z| < (p.box.depth + newBox.depth) / 2

instance (newBox : Box) (x z : ℚ) (p : PlacedBox) :
    Decidable (overlapSpec newBox x z p) := by
  unfold overlapSpec; infer_instance

/-- Spec wording: a placement's top surface is its elevation plus its
half-height. -/
def topSurfaceSpec (p : PlacedBox) : ℚ :=
  p.y + p.box.height / 2

/-- Spec wording: the candidate's resting base is the highest top surface
among overlapping placements, or the floor elevation if none overlaps. -/
def restingBaseSpec (placed : List PlacedBox) (x z : ℚ) (newBox : Box) : ℚ :=
  (placed.filter (fun p => decide (overlapSpec newBox x z p))).foldl
    (fun a p => max a (topSurfaceSpec p)) PickingOF.floorY

/-! ## Concrete sample data used by witnesses and counterexamples -/

/-- A green (Medium) box: volume `0.018 ∈ (0.015, 0.05]`. -/
def boxG : Box := mkBox (3/10) (2/10) (3/10) 0 0 0

/-- A blue (Light) box: volume `0.008 ≤ 0.015`. -/
def boxB : Box := mkBox (2/10) (2/10) (2/10) 0 0 0

/-- A red (Heavy) box: volume `0.054 > 0.05`. -/
def boxR : Box := mkBox (3/10) (4/10) (45/100) 0 0 0

/-- Open-footprint truck state right after `placeTruck` and
`generateNewBox` (pending green box, nothing committed, no preview yet). -/
def ofReadyState : PickingOF.State :=
  PickingOF.generateNewBox boxG (PickingOF.placeTruck PickingOF.initState)

/-- Grid pallet state with the pallet placed and no pending box. -/
def cubagemPlacedState : Cubagem.State :=
  Cubagem.placePallet Cubagem.initState

/-! ## Helper lemmas shared by the claim theorems -/

/-- Helper: `getTopBox` returns the last element of the list. -/
theorem getTopBox_eq (l : List Box) : getTopBox l = l.getLast? := by
  unfold getTopBox
  rcases l with _ | ⟨a, t⟩
  · rfl
  · rw [if_neg (by simp), List.get?_eq_getElem?, List.getLast?_eq_getElem?]

/-- Helper: `canStack` over a present target decides the weight comparison. -/
theorem canStack_some_iff (n t : Box) :
    canStack n (some t) = true ↔
      COLOR_WEIGHT n.colorCategory ≤ COLOR_WEIGHT t.colorCategory := by
  simp [canStack]

/-- Helper: `getStackError` is `none` exactly when `canStack` holds. -/
theorem getStackError_none_iff (n : Box) (t : Option Box) :
    getStackError n t = none ↔ canStack n t = true := by
  cases t with
  | none => simp [getStackError, canStack]
  | some b =>
    by_cases h : canStack n (some b) = true
    · simp [getStackError, h]
    · simp [getStackError, h]

/-- Helper: the `getStackY` fold accumulates the sum of the heights. -/
theorem foldl_height_eq (l : List Box) (base : ℚ) :
    l.foldl (fun y b => y + b.height) base = base + (l.map Box.height).sum := by
  induction l generalizing base with
  | nil => simp
  | cons a t ih => simp [ih, add_assoc]

/-! ## C1 — stacking rule validator -/

/-- C1: `canStack(newBox, targetBox)` is true iff the target is absent or the
weight of the new box's category is at most the target's, with the weights
RED = 3 > GREEN = 2 > BLUE = 1; `getStackError` returns a message naming
both categories exactly when `canStack` is false, and `null` otherwise.
(Both are pure functions in this embedding by construction.) -/
theorem canStack_getStackError_spec :
    (COLOR_WEIGHT .red = 3 ∧ COLOR_WEIGHT .green = 2 ∧ COLOR_WEIGHT .blue = 1) ∧
    (∀ n : Box, canStack n none = true) ∧
    (∀ n t : Box, canStack n (some t) = true ↔
      COLOR_WEIGHT n.colorCategory ≤ COLOR_WEIGHT t.colorCategory) ∧
    (∀ (n : Box) (t : Option Box), getStackError n t = none ↔ canStack n t = true) ∧
    (∀ n t : Box, canStack n (some t) = false →
      getStackError n (some t) =
        some ("Caixa " ++ getColorName n.colorCategory ++
          " não pode ser empilhada sobre caixa " ++
          getColorName t.colorCategory ++ "!")) := by
  refine ⟨⟨rfl, rfl, rfl⟩, fun n => rfl, canStack_some_iff, getStackError_none_iff, ?_⟩
  intro n t h
  simp [getStackError, h]

/-- Witness for C1 at concrete boxes (red over blue is refused and named). -/
theorem canStack_getStackError_spec_witness :
    canStack boxR (some boxB) = false ∧
    getStackError boxR (some boxB) =
      some ("Caixa " ++ getColorName boxR.colorCategory ++
        " não pode ser empilhada sobre caixa " ++
        getColorName boxB.colorCategory ++ "!") :=
  ⟨by decide, canStack_getStackError_spec.2.2.2.2 boxR boxB (by decide)⟩

/-! ## C5 — grid support resolver -/

/-- C5: `getTopBox` returns the last element of the column (none if empty),
and `getStackY` returns `baseY` plus the sum of the heights of the boxes in
the column plus half the candidate's height; both are pure functions of the
current column contents. -/
theorem gridResolver_spec :
    (∀ l : List Box, getTopBox l = l.getLast?) ∧
    (∀ (b : Box) (l : List Box) (baseY : ℚ),
      getStackY b l baseY = baseY + (l.map Box.height).sum + b.height / 2) := by
  refine ⟨getTopBox_eq, fun b l baseY => ?_⟩
  rw [getStackY, foldl_height_eq]

/-! ## C6 — volume classifier -/

/-- C6: every volume gets exactly one category: above `VOLUME_HIGH = 0.05`
red (Heavy), in `(VOLUME_MID, VOLUME_HIGH] = (0.015, 0.05]` green (Medium),
otherwise blue (Light); `classifyVolume` is deterministic, and a
constructed box's stored category is `classifyVolume` of its stored volume,
which is the product of its three dimensions. -/
theorem classifyVolume_spec :
    (VOLUME_HIGH = 5/100 ∧ VOLUME_MID = 15/1000) ∧
    (∀ v : ℚ, VOLUME_HIGH < v → classifyVolume v = .red) ∧
    (∀ v : ℚ, VOLUME_MID < v → v ≤ VOLUME_HIGH → classifyVolume v = .green) ∧
    (∀ v : ℚ, v ≤ VOLUME_MID → classifyVolume v = .blue) ∧
    (∀ v w : ℚ, v = w → classifyVolume v = classifyVolume w) ∧
    (∀ width height depth r1 r2 r3 : ℚ,
      (mkBox width height depth r1 r2 r3).volume =
        (mkBox width height depth r1 r2 r3).width *
        (mkBox width height depth r1 r2 r3).height *
        (mkBox width height depth r1 r2 r3).depth ∧
      (mkBox width height depth r1 r2 r3).colorCategory =
        classifyVolume ((mkBox width height depth r1 r2 r3).volume)) := by
  refine ⟨⟨rfl, rfl⟩, ?_, ?_, ?_, ?_, ?_⟩
  · intro v h; simp [classifyVolume, h]
  · intro v h1 h2
    rw [classifyVolume, if_neg (by exact not_lt.mpr h2), if_pos h1]
  · intro v h
    have hmid : VOLUME_MID < VOLUME_HIGH := by norm_num [VOLUME_MID, VOLUME_HIGH]
    rw [classifyVolume, if_neg (by exact not_lt.mpr (h.trans hmid.le)),
      if_neg (by exact not_lt.mpr h)]
  · intro v w h; rw [h]
  · intro width height depth r1 r2 r3
    exact ⟨rfl, rfl⟩

/-- Witness for C6 at concrete volumes on each side of the thresholds. -/
theorem classifyVolume_spec_witness :
    (VOLUME_HIGH < 6/100 ∧ classifyVolume (6/100) = .red) ∧
    (VOLUME_MID < 18/1000 ∧ (18:ℚ)/1000 ≤ VOLUME_HIGH ∧
      classifyVolume (18/1000) = .green) ∧
    ((8:ℚ)/1000 ≤ VOLUME_MID ∧ classifyVolume (8/1000) = .blue) :=
  ⟨⟨by decide, classifyVolume_spec.2.1 (6/100) (by decide)⟩,
   ⟨by decide, by decide, classifyVolume_spec.2.2.1 (18/1000) (by decide) (by decide)⟩,
   ⟨by decide, classifyVolume_spec.2.2.2.1 (8/1000) (by decide)⟩⟩

/-! ## C10 — box construction edge cases -/

/-- C10: the `Box` constructor does not reject a zero (or omitted) dimension:
each such slot is replaced by an independent `randomDim()` draw, which lies
in `[0.1, 0.5)`; for non-negative arguments every resulting dimension is
strictly positive, and the stored volume is the product of the resulting
dimensions. -/
theorem mkBox_zero_dims_spec :
    ∀ width height depth r1 r2 r3 : ℚ,
      0 ≤ width → 0 ≤ height → 0 ≤ depth →
      0 ≤ r1 → r1 < 1 → 0 ≤ r2 → r2 < 1 → 0 ≤ r3 → r3 < 1 →
      ((width = 0 → (mkBox width height depth r1 r2 r3).width = randomDim r1 ∧
          DIM_MIN ≤ (mkBox width height depth r1 r2 r3).width ∧
          (mkBox width height depth r1 r2 r3).width < DIM_MAX) ∧
       (width ≠ 0 → (mkBox width height depth r1 r2 r3).width = width) ∧
       (height = 0 → (mkBox width height depth r1 r2 r3).height = randomDim r2 ∧
          DIM_MIN ≤ (mkBox width height depth r1 r2 r3).height ∧
          (mkBox width height depth r1 r2 r3).height < DIM_MAX) ∧
       (height ≠ 0 → (mkBox width height depth r1 r2 r3).height = height) ∧
       (depth = 0 → (mkBox width height depth r1 r2 r3).depth = randomDim r3 ∧
          DIM_MIN ≤ (mkBox width height depth r1 r2 r3).depth ∧
          (mkBox width height depth r1 r2 r3).depth < DIM_MAX) ∧
       (depth ≠ 0 → (mkBox width height depth r1 r2 r3).depth = depth) ∧
       0 < (mkBox width height depth r1 r2 r3).width ∧
       0 < (mkBox width height depth r1 r2 r3).height ∧
       0 < (mkBox width height depth r1 r2 r3).depth ∧
       (mkBox width height depth r1 r2 r3).volume =
         (mkBox width height depth r1 r2 r3).width *
         (mkBox width height depth r1 r2 r3).height *
         (mkBox width height depth r1 r2 r3).depth) := by
  intro width height depth r1 r2 r3 hw hh hd h1 h1' h2 h2' h3 h3'
  have hrand : ∀ r : ℚ, 0 ≤ r → r < 1 →
      DIM_MIN ≤ randomDim r ∧ randomDim r < DIM_MAX := by
    intro r hr hr'
    constructor
    · have : 0 ≤ r * (DIM_MAX - DIM_MIN) := by
        apply mul_nonneg hr; norm_num [DIM_MAX, DIM_MIN]
      simp only [randomDim]; linarith
    · have : r * (DIM_MAX - DIM_MIN) < 1 * (DIM_MAX - DIM_MIN) := by
        apply mul_lt_mul_of_pos_right hr'; norm_num [DIM_MAX, DIM_MIN]
      simp only [randomDim]; linarith
  have hminpos : (0:ℚ) < DIM_MIN := by norm_num [DIM_MIN]
  have dim_pos : ∀ arg r : ℚ, 0 ≤ arg → 0 ≤ r → r < 1 →
      0 < (if arg = 0 then randomDim r else arg) := by
    intro arg r ha hr hr'
    by_cases h : arg = 0
    · rw [if_pos h]; exact hminpos.trans_le (hrand r hr hr').1
    · rw [if_neg h]; exact lt_of_le_of_ne ha (Ne.symm h)
  refine ⟨?_, ?_, ?_, ?_, ?_, ?_, ?_, ?_, ?_, rfl⟩
  · intro h0
    have e : (mkBox width height depth r1 r2 r3).width = randomDim r1 := by
      simp only [mkBox, if_pos h0]
    rw [e]
    exact ⟨rfl, (hrand r1 h1 h1').1, (hrand r1 h1 h1').2⟩
  · intro h0; simp only [mkBox, if_neg h0]
  · intro h0
    have e : (mkBox width height depth r1 r2 r3).height = randomDim r2 := by
      simp only [mkBox, if_pos h0]
    rw [e]
    exact ⟨rfl, (hrand r2 h2 h2').1, (hrand r2 h2 h2').2⟩
  · intro h0; simp only [mkBox, if_neg h0]
  · intro h0
    have e : (mkBox width height depth r1 r2 r3).depth = randomDim r3 := by
      simp only [mkBox, if_pos h0]
    rw [e]
    exact ⟨rfl, (hrand r3 h3 h3').1, (hrand r3 h3 h3').2⟩
  · intro h0; simp only [mkBox, if_neg h0]
  · exact dim_pos width r1 hw h1 h1'
  · exact dim_pos height r2 hh h2 h2'
  · exact dim_pos depth r3 hd h3 h3'

/-- Witness for C10: zero width and depth are replaced by random draws. -/
theorem mkBox_zero_dims_spec_witness :
    (mkBox 0 (3/10) 0 0 (0:ℚ) (1/2)).width = randomDim 0 ∧
    0 < (mkBox 0 (3/10) 0 0 (0:ℚ) (1/2)).height ∧
    (mkBox 0 (3/10) 0 0 (0:ℚ) (1/2)).depth = randomDim (1/2) := by
  have h := mkBox_zero_dims_spec 0 (3/10) 0 0 0 (1/2)
    (by decide) (by decide) (by decide) (by decide) (by decide)
    (by decide) (by decide) (by decide) (by decide)
  exact ⟨(h.1 rfl).1, h.2.2.2.2.2.2.2.1, (h.2.2.2.2.1 rfl).1⟩

/-! ## C8 — sequencing errors of place -/

/-- Counterexample to C8: in a state with no container placed, `placeBox`
fails with the same message `"Gere uma caixa primeiro!"` ("generate a box
first") that it emits when a container is placed but no pending item
exists; there is no distinct "place container first" failure. -/
theorem place_sequencing_counterexample :
    (Cubagem.placeBox Cubagem.initState).2.success = false ∧
    (Cubagem.placeBox cubagemPlacedState).2.success = false ∧
    Cubagem.initState.palletPlaced = false ∧
    cubagemPlacedState.palletPlaced = true ∧
    cubagemPlacedState.currentBox = none ∧
    (Cubagem.placeBox Cubagem.initState).2.message = "Gere uma caixa primeiro!" ∧
    (Cubagem.placeBox Cubagem.initState).2.message =
      (Cubagem.placeBox cubagemPlacedState).2.message := by
  decide

/-- C8 as amended: in both sequencing cases — no container placed, or no
pending item — every `placeBox` variant fails with the single message
`"Gere uma caixa primeiro!"` and leaves the state (committed set, count,
container) entirely unchanged. -/
theorem place_sequencing_guard :
    (∀ s : Cubagem.State, s.currentBox = none ∨ s.palletPlaced = false →
      Cubagem.placeBox s =
        (s, { success := false, message := "Gere uma caixa primeiro!" })) ∧
    (∀ s : PickingGrid.State, s.currentBox = none ∨ s.truckPlaced = false →
      PickingGrid.placeBox s =
        (s, { success := false, message := "Gere uma caixa primeiro!" })) ∧
    (∀ s : PickingOF.State, s.currentBox = none ∨ s.truckPlaced = false →
      PickingOF.placeBox s =
        (s, { success := false, message := "Gere uma caixa primeiro!" })) := by
  refine ⟨fun s h => ?_, fun s h => ?_, fun s h => ?_⟩
  · cases hcb : s.currentBox with
    | none => simp [Cubagem.placeBox, hcb]
    | some b =>
      have hp : s.palletPlaced = false := by
        rcases h with h | h
        · rw [h] at hcb; cases hcb
        · exact h
      simp [Cubagem.placeBox, hcb, hp]
  · cases hcb : s.currentBox with
    | none => simp [PickingGrid.placeBox, hcb]
    | some b =>
      have hp : s.truckPlaced = false := by
        rcases h with h | h
        · rw [h] at hcb; cases hcb
        · exact h
      simp [PickingGrid.placeBox, hcb, hp]
  · cases hcb : s.currentBox with
    | none => simp [PickingOF.placeBox, hcb]
    | some b =>
      have hp : s.truckPlaced = false := by
        rcases h with h | h
        · rw [h] at hcb; cases hcb
        · exact h
      simp [PickingOF.placeBox, hcb, hp]

/-- Helper: full case analysis of `Cubagem.placeBox` — either a commit that
appends to the selected column, or a failure that returns `s` unchanged. -/
theorem cubagem_placeBox_cases (s : Cubagem.State) :
    (∃ b, s.currentBox = some b ∧ s.palletPlaced = true ∧
      getStackError b (getTopBox (s.stacks'.getD s.selectedStackIndex [])) = none ∧
      Cubagem.placeBox s =
        ({ s with
            stacks' := s.stacks'.set s.selectedStackIndex
              (s.stacks'.getD s.selectedStackIndex [] ++ [b]),
            boxCount := s.boxCount + 1,
            currentBox := none },
         { success := true,
           message := "Caixa empilhada! (Coluna " ++
             toString (s.selectedStackIndex + 1) ++ ", Total: " ++
             toString (s.boxCount + 1) ++ ")" })) ∨
    ((Cubagem.placeBox s).1 = s ∧ (Cubagem.placeBox s).2.success = false) := by
  cases hcb : s.currentBox with
  | none => right; simp [Cubagem.placeBox, hcb]
  | some b =>
    cases hp : s.palletPlaced with
    | false => right; simp [Cubagem.placeBox, hcb, hp]
    | true =>
      cases he : getStackError b (getTopBox (s.stacks'.getD s.selectedStackIndex [])) with
      | some e =>
        right
        rw [List.getD_eq_getElem?_getD] at he
        simp [Cubagem.placeBox, hcb, hp, he]
      | none =>
        left
        refine ⟨b, rfl, rfl, he, ?_⟩
        rw [List.getD_eq_getElem?_getD] at he
        simp [Cubagem.placeBox, hcb, hp, he, List.getD_eq_getElem?_getD]

/-- Helper: full case analysis of the grid `PickingGrid.placeBox` — either a
commit that appends to the selected column (colour rule satisfied and the
height bound respected), or a failure that returns `s` unchanged. -/
theorem pickingGrid_placeBox_cases (s : PickingGrid.State) :
    (∃ b, s.currentBox = some b ∧ s.truckPlaced = true ∧
      getStackError b (getTopBox (s.stacks'.getD s.selectedStackIndex [])) = none ∧
      ¬ (getStackY b (s.stacks'.getD s.selectedStackIndex [])
            PickingGrid.truckWallThickness + b.height / 2 > PickingGrid.truckHeight) ∧
      PickingGrid.placeBox s =
        ({ s with
            stacks' := s.stacks'.set s.selectedStackIndex
              (s.stacks'.getD s.selectedStackIndex [] ++ [b]),
            boxCount := s.boxCount + 1,
            currentBox := none },
         { success := true,
           message := "Caixa carregada! (Posição " ++
             toString (s.selectedStackIndex + 1) ++ ", Total: " ++
             toString (s.boxCount + 1) ++ ")" })) ∨
    ((PickingGrid.placeBox s).1 = s ∧ (PickingGrid.placeBox s).2.success = false) := by
  cases hcb : s.currentBox with
  | none => right; simp [PickingGrid.placeBox, hcb]
  | some b =>
    cases hp : s.truckPlaced with
    | false => right; simp [PickingGrid.placeBox, hcb, hp]
    | true =>
      cases he : getStackError b (getTopBox (s.stacks'.getD s.selectedStackIndex [])) with
      | some e =>
        right
        rw [List.getD_eq_getElem?_getD] at he
        simp [PickingGrid.placeBox, hcb, hp, he]
      | none =>
        by_cases hh : getStackY b (s.stacks'.getD s.selectedStackIndex [])
            PickingGrid.truckWallThickness + b.height / 2 > PickingGrid.truckHeight
        · right
          rw [List.getD_eq_getElem?_getD] at he
          rw [List.getD_eq_getElem?_getD] at hh
          simp [PickingGrid.placeBox, hcb, hp, he, hh]
        · left
          refine ⟨b, rfl, rfl, he, hh, ?_⟩
          rw [List.getD_eq_getElem?_getD] at he
          rw [List.getD_eq_getElem?_getD] at hh
          simp [PickingGrid.placeBox, hcb, hp, he, hh, List.getD_eq_getElem?_getD]

/-- Helper: full case analysis of the open-footprint `PickingOF.placeBox` —
either a commit that appends the pending box at its mesh position, or a
failure that returns `s` unchanged. -/
theorem pickingOF_placeBox_cases (s : PickingOF.State) :
    (∃ b, s.currentBox = some b ∧ s.truckPlaced = true ∧ s.previewValid = true ∧
      PickingOF.placeBox s =
        ({ s with
            placedBoxes := s.placedBoxes ++ [⟨b, s.posX, s.posY, s.posZ⟩],
            boxCount := s.boxCount + 1,
            currentBox := none },
         { success := true,
           message := "Caixa carregada! (Total: " ++
             toString (s.boxCount + 1) ++ ")" })) ∨
    ((PickingOF.placeBox s).1 = s ∧ (PickingOF.placeBox s).2.success = false) := by
  cases hcb : s.currentBox with
  | none => right; simp [PickingOF.placeBox, hcb]
  | some b =>
    cases hp : s.truckPlaced with
    | false => right; simp [PickingOF.placeBox, hcb, hp]
    | true =>
      cases hv : s.previewValid with
      | false =>
        right
        have heq : PickingOF.placeBox s =
            (if PickingOF.maxHeight < s.posY + b.height / 2 then
              (s, { success := false, message := "Caixa excede a altura da caçamba!" })
            else
              (s, { success := false,
                    message := (getStackError b
                      (PickingOF.findTopAt s.placedBoxes s.posX s.posZ b).1).getD
                      "Posicionamento inválido!" })) := by
          simp [PickingOF.placeBox, hcb, hp, hv]
        rw [heq]
        split <;> exact ⟨rfl, rfl⟩
      | true =>
        left
        exact ⟨b, rfl, rfl, rfl, by simp [PickingOF.placeBox, hcb, hp, hv]⟩

/-! ## C3 — place is atomic -/

/-- C3: every `placeBox` variant is atomic: it either succeeds, appending
exactly one item to the committed set (the selected column, or the
placed-boxes list in the open-footprint variant) and incrementing the count
by exactly one, or fails leaving the whole state — committed set, count and
container — unchanged.  (The index-bound hypothesis reflects the engine
invariant that a placed container has its columns initialised.) -/
theorem place_atomic :
    (∀ s : Cubagem.State,
      (s.palletPlaced = true → s.selectedStackIndex < s.stacks'.length) →
      (∃ b, s.currentBox = some b ∧ (Cubagem.placeBox s).2.success = true ∧
        (Cubagem.placeBox s).1.stacks'.getD s.selectedStackIndex [] =
          s.stacks'.getD s.selectedStackIndex [] ++ [b] ∧
        (∀ j, j ≠ s.selectedStackIndex →
          (Cubagem.placeBox s).1.stacks'.getD j [] = s.stacks'.getD j []) ∧
        (Cubagem.placeBox s).1.stacks'.length = s.stacks'.length ∧
        (Cubagem.placeBox s).1.boxCount = s.boxCount + 1 ∧
        (Cubagem.placeBox s).1.palletPlaced = s.palletPlaced) ∨
      ((Cubagem.placeBox s).1 = s ∧ (Cubagem.placeBox s).2.success = false)) ∧
    (∀ s : PickingGrid.State,
      (s.truckPlaced = true → s.selectedStackIndex < s.stacks'.length) →
      (∃ b, s.currentBox = some b ∧ (PickingGrid.placeBox s).2.success = true ∧
        (PickingGrid.placeBox s).1.stacks'.getD s.selectedStackIndex [] =
          s.stacks'.getD s.selectedStackIndex [] ++ [b] ∧
        (∀ j, j ≠ s.selectedStackIndex →
          (PickingGrid.placeBox s).1.stacks'.getD j [] = s.stacks'.getD j []) ∧
        (PickingGrid.placeBox s).1.stacks'.length = s.stacks'.length ∧
        (PickingGrid.placeBox s).1.boxCount = s.boxCount + 1 ∧
        (PickingGrid.placeBox s).1.truckPlaced = s.truckPlaced) ∨
      ((PickingGrid.placeBox s).1 = s ∧ (PickingGrid.placeBox s).2.success = false)) ∧
    (∀ s : PickingOF.State,
      (∃ b, s.currentBox = some b ∧ (PickingOF.placeBox s).2.success = true ∧
        (PickingOF.placeBox s).1.placedBoxes =
          s.placedBoxes ++ [⟨b, s.posX, s.posY, s.posZ⟩] ∧
        (PickingOF.placeBox s).1.boxCount = s.boxCount + 1 ∧
        (PickingOF.placeBox s).1.truckPlaced = s.truckPlaced) ∨
      ((PickingOF.placeBox s).1 = s ∧ (PickingOF.placeBox s).2.success = false)) := by
  refine ⟨fun s hidx => ?_, fun s hidx => ?_, fun s => ?_⟩
  · rcases cubagem_placeBox_cases s with ⟨b, hcb, hp, _he, heq⟩ | hfail
    · left
      refine ⟨b, hcb, by rw [heq], ?_, ?_, ?_, ?_, ?_⟩ <;> rw [heq]
      · have hi := hidx hp
        simp only [List.getD_eq_getElem?_getD]
        rw [List.getElem?_set_self] <;> simp [hi]
      · intro j hj
        simp only [List.getD_eq_getElem?_getD]
        rw [List.getElem?_set_ne (Ne.symm hj)]
      · exact List.length_set _ _ _
    · right; exact hfail
  · rcases pickingGrid_placeBox_cases s with ⟨b, hcb, hp, _he, _hh, heq⟩ | hfail
    · left
      refine ⟨b, hcb, by rw [heq], ?_, ?_, ?_, ?_, ?_⟩ <;> rw [heq]
      · have hi := hidx hp
        simp only [List.getD_eq_getElem?_getD]
        rw [List.getElem?_set_self] <;> simp [hi]
      · intro j hj
        simp only [List.getD_eq_getElem?_getD]
        rw [List.getElem?_set_ne (Ne.symm hj)]
      · exact List.length_set _ _ _
    · right; exact hfail
  · rcases pickingOF_placeBox_cases s with ⟨b, hcb, hp, hv, heq⟩ | hfail
    · left
      exact ⟨b, hcb, by rw [heq], by rw [heq], by rw [heq], by rw [heq]⟩
    · right; exact hfail

/-- Witness for C3 at concrete states (a failing place from the initial
state, whose index hypothesis holds vacuously). -/
theorem place_atomic_witness :
    ((∃ b, Cubagem.initState.currentBox = some b ∧
        (Cubagem.placeBox Cubagem.initState).2.success = true ∧
        (Cubagem.placeBox Cubagem.initState).1.stacks'.getD
            Cubagem.initState.selectedStackIndex [] =
          Cubagem.initState.stacks'.getD Cubagem.initState.selectedStackIndex [] ++ [b] ∧
        (∀ j, j ≠ Cubagem.initState.selectedStackIndex →
          (Cubagem.placeBox Cubagem.initState).1.stacks'.getD j [] =
            Cubagem.initState.stacks'.getD j []) ∧
        (Cubagem.placeBox Cubagem.initState).1.stacks'.length =
          Cubagem.initState.stacks'.length ∧
        (Cubagem.placeBox Cubagem.initState).1.boxCount =
          Cubagem.initState.boxCount + 1 ∧
        (Cubagem.placeBox Cubagem.initState).1.palletPlaced =
          Cubagem.initState.palletPlaced) ∨
      ((Cubagem.placeBox Cubagem.initState).1 = Cubagem.initState ∧
        (Cubagem.placeBox Cubagem.initState).2.success = false)) :=
  place_atomic.1 Cubagem.initState (by intro h; cases h)

/-! ## C9 — grid stacking invariant -/

/-- Helper: a column fetched with `getD` from an ordered stack list is
ordered (an out-of-range fetch yields the empty column). -/
theorem stacksOrdered_getD {ls : List (List Box)} (h : stacksOrdered ls) (i : Nat) :
    orderedStack (ls.getD i []) := by
  rcases Nat.lt_or_ge i ls.length with hi | hi
  · rw [List.getD_eq_getElem ls [] hi]
    exact h _ (List.getElem_mem hi)
  · rw [List.getD_eq_default ls [] hi]
    exact List.chain'_nil

/-- Helper: appending a box that `canStack` accepts against the column's top
preserves the ordering of the column. -/
theorem orderedStack_append {l : List Box} {b : Box} (h : orderedStack l)
    (hc : canStack b (getTopBox l) = true) : orderedStack (l ++ [b]) := by
  rw [orderedStack, List.chain'_append]
  refine ⟨h, List.chain'_singleton b, ?_⟩
  intro x hx y hy
  rw [getTopBox_eq] at hc
  simp only [List.head?_cons, Option.mem_def, Option.some.injEq] at hy
  subst hy
  rw [Option.mem_def] at hx
  rw [hx] at hc
  simpa [canStack] using hc

/-- C9: in every state of the grid engines reachable by any sequence of
`placePallet`/`placeTruck`, `generateNewBox`, `cycleStack`, `placeBox` and
`reset`, every column has non-increasing colour weight from bottom to top,
because `placeBox` only appends when `canStack` holds against the column's
current top box. -/
theorem grid_stacking_invariant :
    (∀ s : Cubagem.State, Cubagem.Reach s → stacksOrdered s.stacks') ∧
    (∀ s : PickingGrid.State, PickingGrid.Reach s → stacksOrdered s.stacks') := by
  constructor
  · intro s hs
    induction hs with
    | start => intro l hl; simp [Cubagem.initState] at hl
    | container hr ih =>
      unfold Cubagem.placePallet
      split
      · exact ih
      · intro l hl
        rcases List.mem_append.mp hl with h | h
        · exact ih l h
        · rw [List.eq_of_mem_replicate h]; exact List.chain'_nil
    | generate b hr ih => exact ih
    | cycle hr ih =>
      unfold Cubagem.cycleStack
      split
      · exact ih
      · exact ih
    | commit hr ih =>
      rcases cubagem_placeBox_cases _ with ⟨b, hcb, hp, he, heq⟩ | ⟨heq, _⟩
      · rw [heq]
        intro l hl
        rcases List.mem_or_eq_of_mem_set hl with h | h
        · exact ih l h
        · subst h
          exact orderedStack_append (stacksOrdered_getD ih _)
            ((getStackError_none_iff _ _).mp he)
      · rw [heq]; exact ih
    | restart hr ih => intro l hl; simp [Cubagem.resetState, Cubagem.initState] at hl
  · intro s hs
    induction hs with
    | start => intro l hl; simp [PickingGrid.initState] at hl
    | container hr ih =>
      unfold PickingGrid.placeTruck
      split
      · exact ih
      · intro l hl
        rcases List.mem_append.mp hl with h | h
        · exact ih l h
        · rw [List.eq_of_mem_replicate h]; exact List.chain'_nil
    | generate b hr ih => exact ih
    | cycle hr ih =>
      unfold PickingGrid.cycleStack
      split
      · exact ih
      · exact ih
    | commit hr ih =>
      rcases pickingGrid_placeBox_cases _ with ⟨b, hcb, hp, he, hh, heq⟩ | ⟨heq, _⟩
      · rw [heq]
        intro l hl
        rcases List.mem_or_eq_of_mem_set hl with h | h
        · exact ih l h
        · subst h
          exact orderedStack_append (stacksOrdered_getD ih _)
            ((getStackError_none_iff _ _).mp he)
      · rw [heq]; exact ih
    | restart hr ih => intro l hl; simp [PickingGrid.resetState, PickingGrid.initState] at hl

/-- Witness for C9: the invariant at a concrete reachable state (pallet
placed, one green box generated and committed to column 0). -/
theorem grid_stacking_invariant_witness :
    stacksOrdered
      ((Cubagem.placeBox (Cubagem.generateNewBox boxG
        (Cubagem.placePallet Cubagem.initState))).1.stacks') ∧
    stacksOrdered PickingGrid.initState.stacks' :=
  ⟨grid_stacking_invariant.1 _
    (Cubagem.Reach.commit (Cubagem.Reach.generate boxG
      (Cubagem.Reach.container Cubagem.Reach.start))),
   grid_stacking_invariant.2 _ PickingGrid.Reach.start⟩

/-- Helper: in every reachable grid-engine state, an unplaced container has
no columns and index 0, and a placed container has the selected index within
the column list — so the index-bound hypothesis of the atomicity theorem
holds in every engine state. -/
theorem reach_index_bound :
    (∀ s : Cubagem.State, Cubagem.Reach s →
      (s.palletPlaced = false → s.stacks' = [] ∧ s.selectedStackIndex = 0) ∧
      (s.palletPlaced = true → s.selectedStackIndex < s.stacks'.length)) ∧
    (∀ s : PickingGrid.State, PickingGrid.Reach s →
      (s.truckPlaced = false → s.stacks' = [] ∧ s.selectedStackIndex = 0) ∧
      (s.truckPlaced = true → s.selectedStackIndex < s.stacks'.length)) := by
  constructor
  · intro s hs
    induction hs with
    | start => exact ⟨fun _ => ⟨rfl, rfl⟩, fun h => by simp [Cubagem.initState] at h⟩
    | container hr ih =>
      unfold Cubagem.placePallet
      split
      · exact ih
      · rename_i hnp
        rw [Bool.not_eq_true] at hnp
        constructor
        · intro h; cases h
        · intro _
          rcases ih.1 hnp with ⟨hst, hidx⟩
          simp [hst, hidx, Cubagem.numStacks]
    | generate b hr ih => exact ih
    | cycle hr ih =>
      unfold Cubagem.cycleStack
      split
      · rename_i hp
        constructor
        · intro h; rw [h] at hp; cases hp
        · intro _
          exact Nat.mod_lt _ (Nat.lt_of_le_of_lt (Nat.zero_le _) (ih.2 hp))
      · exact ih
    | commit hr ih =>
      rcases cubagem_placeBox_cases _ with ⟨b, hcb, hp, he, heq⟩ | ⟨heq, _⟩
      · rw [heq]
        constructor
        · intro h; rw [hp] at h; cases h
        · intro _
          rw [List.length_set]
          exact ih.2 hp
      · rw [heq]; exact ih
    | restart hr ih =>
      exact ⟨fun _ => ⟨rfl, rfl⟩,
        fun h => by simp [Cubagem.resetState, Cubagem.initState] at h⟩
  · intro s hs
    induction hs with
    | start => exact ⟨fun _ => ⟨rfl, rfl⟩, fun h => by simp [PickingGrid.initState] at h⟩
    | container hr ih =>
      unfold PickingGrid.placeTruck
      split
      · exact ih
      · rename_i hnp
        rw [Bool.not_eq_true] at hnp
        constructor
        · intro h; cases h
        · intro _
          rcases ih.1 hnp with ⟨hst, hidx⟩
          simp [hst, hidx, PickingGrid.numStacks]
    | generate b hr ih => exact ih
    | cycle hr ih =>
      unfold PickingGrid.cycleStack
      split
      · rename_i hp
        constructor
        · intro h; rw [h] at hp; cases hp
        · intro _
          exact Nat.mod_lt _ (Nat.lt_of_le_of_lt (Nat.zero_le _) (ih.2 hp))
      · exact ih
    | commit hr ih =>
      rcases pickingGrid_placeBox_cases _ with ⟨b, hcb, hp, he, hh, heq⟩ | ⟨heq, _⟩
      · rw [heq]
        constructor
        · intro h; rw [hp] at h; cases h
        · intro _
          rw [List.length_set]
          exact ih.2 hp
      · rw [heq]; exact ih
    | restart hr ih =>
      exact ⟨fun _ => ⟨rfl, rfl⟩,
        fun h => by simp [PickingGrid.resetState, PickingGrid.initState] at h⟩

/-! ## C4 — open-footprint support resolution -/

/-- Helper: `topStep` in terms of the spec-side overlap test and top surface. -/
theorem topStep_eq (nb : Box) (x z : ℚ) (acc : Option Box × ℚ) (p : PlacedBox) :
    PickingOF.topStep nb x z acc p =
      if overlapSpec nb x z p then
        (if acc.2 < topSurfaceSpec p then (some p.box, topSurfaceSpec p) else acc)
      else acc := by
  simp only [PickingOF.topStep, overlapSpec, topSurfaceSpec]

/-- Helper: the second component of the `_findTopAt` fold is the running
maximum of the overlapping top surfaces. -/
theorem foldl_topStep_snd (nb : Box) (x z : ℚ) (l : List PlacedBox) :
    ∀ acc : Option Box × ℚ,
      (l.foldl (PickingOF.topStep nb x z) acc).2 =
        (l.filter (fun p => decide (overlapSpec nb x z p))).foldl
          (fun a p => max a (topSurfaceSpec p)) acc.2 := by
  induction l with
  | nil => intro acc; rfl
  | cons q l ih =>
    intro acc
    rw [List.foldl_cons, ih, List.filter_cons]
    by_cases h : overlapSpec nb x z q
    · rw [if_pos (by simpa using h), List.foldl_cons]
      congr 1
      rw [topStep_eq, if_pos h]
      by_cases h2 : acc.2 < topSurfaceSpec q
      · rw [if_pos h2]; exact (max_eq_right h2.le).symm
      · rw [if_neg h2]; exact (max_eq_left (not_lt.mp h2)).symm
    · rw [if_neg (by simpa using h)]
      congr 1
      rw [topStep_eq, if_neg h]

/-- Helper: the `_findTopAt` fold either returns its accumulator unchanged
(every overlapping top is at most the starting surface) or returns an
overlapping placement's box together with that placement's top surface. -/
theorem foldl_topStep_main (nb : Box) (x z : ℚ) (l : List PlacedBox) :
    ∀ (tb : Option Box) (ts : ℚ),
      (l.foldl (PickingOF.topStep nb x z) (tb, ts) = (tb, ts) ∧
        ∀ p ∈ l, overlapSpec nb x z p → topSurfaceSpec p ≤ ts) ∨
      (∃ p ∈ l, overlapSpec nb x z p ∧
        (l.foldl (PickingOF.topStep nb x z) (tb, ts)).1 = some p.box ∧
        (l.foldl (PickingOF.topStep nb x z) (tb, ts)).2 = topSurfaceSpec p) := by
  induction l with
  | nil => intro tb ts; left; exact ⟨rfl, by simp⟩
  | cons q l ih =>
    intro tb ts
    rw [List.foldl_cons, topStep_eq]
    by_cases h : overlapSpec nb x z q
    · rw [if_pos h]
      by_cases h2 : (tb, ts).2 < topSurfaceSpec q
      · rw [if_pos h2]
        rcases ih (some q.box) (topSurfaceSpec q) with ⟨heq, hall⟩ | ⟨p, hp, hov, h1, hsq⟩
        · right
          exact ⟨q, List.mem_cons_self q l, h, by rw [heq], by rw [heq]⟩
        · right
          exact ⟨p, List.mem_cons_of_mem q hp, hov, h1, hsq⟩
      · rw [if_neg h2]
        rcases ih tb ts with ⟨heq, hall⟩ | ⟨p, hp, hov, h1, hsq⟩
        · left
          refine ⟨heq, ?_⟩
          intro p hp hov
          rcases List.mem_cons.mp hp with hq | hq
          · subst hq; exact not_lt.mp h2
          · exact hall p hq hov
        · right
          exact ⟨p, List.mem_cons_of_mem q hp, hov, h1, hsq⟩
    · rw [if_neg h]
      rcases ih tb ts with ⟨heq, hall⟩ | ⟨p, hp, hov, h1, hsq⟩
      · left
        refine ⟨heq, ?_⟩
        intro p hp hov
        rcases List.mem_cons.mp hp with hq | hq
        · subst hq; exact absurd hov h
        · exact hall p hq hov
      · right
        exact ⟨p, List.mem_cons_of_mem q hp, hov, h1, hsq⟩

/-- Helper: the starting value is below the running-maximum fold. -/
theorem init_le_foldl_max (l : List PlacedBox) :
    ∀ a : ℚ, a ≤ l.foldl (fun acc p => max acc (topSurfaceSpec p)) a := by
  induction l with
  | nil => intro a; exact le_refl a
  | cons q l ih => intro a; exact (le_max_left a _).trans (ih _)

/-- Helper: every element's top surface is below the running-maximum fold. -/
theorem elem_le_foldl_max (l : List PlacedBox) :
    ∀ (a : ℚ) (p : PlacedBox), p ∈ l →
      topSurfaceSpec p ≤ l.foldl (fun acc q => max acc (topSurfaceSpec q)) a := by
  induction l with
  | nil => intro a p hp; cases hp
  | cons q l ih =>
    intro a p hp
    rcases List.mem_cons.mp hp with h | h
    · subst h; exact (le_max_right a _).trans (init_le_foldl_max l _)
    · exact ih _ p h

/-- C4: `_findTopAt` resolves support exactly as the spec describes: a
placement overlaps iff on each horizontal axis the centre difference is
strictly below the sum of half-extents (`overlapSpec`); the returned
elevation is the highest overlapping top surface (the floor if none
overlaps) plus the candidate's half-height; the returned support, when the
committed tops sit above the floor, is an overlapping placement achieving
that maximum, and is `none` exactly when nothing overlaps.  The query is a
pure function of the placement set. -/
theorem findTopAt_spec :
    ∀ (placed : List PlacedBox) (x z : ℚ) (nb : Box),
      (PickingOF.findTopAt placed x z nb).2 =
        restingBaseSpec placed x z nb + nb.height / 2 ∧
      ((∀ p ∈ placed, ¬ overlapSpec nb x z p) →
        PickingOF.findTopAt placed x z nb =
          (none, PickingOF.floorY + nb.height / 2)) ∧
      ((∀ p ∈ placed, PickingOF.floorY < topSurfaceSpec p) →
        (((PickingOF.findTopAt placed x z nb).1 = none ∧
            ∀ p ∈ placed, ¬ overlapSpec nb x z p) ∨
          (∃ p ∈ placed, overlapSpec nb x z p ∧
            (PickingOF.findTopAt placed x z nb).1 = some p.box ∧
            topSurfaceSpec p = restingBaseSpec placed x z nb ∧
            ∀ q ∈ placed, overlapSpec nb x z q →
              topSurfaceSpec q ≤ topSurfaceSpec p))) := by
  intro placed x z nb
  have h1 : (PickingOF.findTopAt placed x z nb).1 =
      (placed.foldl (PickingOF.topStep nb x z) (none, PickingOF.floorY)).1 := rfl
  have h2 : (PickingOF.findTopAt placed x z nb).2 =
      (placed.foldl (PickingOF.topStep nb x z) (none, PickingOF.floorY)).2 +
        nb.height / 2 := rfl
  have hsnd := foldl_topStep_snd nb x z placed (none, PickingOF.floorY)
  refine ⟨?_, ?_, ?_⟩
  · rw [h2, hsnd]; rfl
  · intro hno
    rcases foldl_topStep_main nb x z placed none PickingOF.floorY with
      ⟨heq, _⟩ | ⟨p, hp, hov, _, _⟩
    · show ((placed.foldl (PickingOF.topStep nb x z) (none, PickingOF.floorY)).1,
          (placed.foldl (PickingOF.topStep nb x z) (none, PickingOF.floorY)).2 +
            nb.height / 2) = _
      rw [heq]
    · exact absurd hov (hno p hp)
  · intro hpos
    rcases foldl_topStep_main nb x z placed none PickingOF.floorY with
      ⟨heq, hall⟩ | ⟨p, hp, hov, hfst, hsq⟩
    · left
      refine ⟨by rw [h1, heq], ?_⟩
      intro p hp hov
      exact absurd (hall p hp hov) (not_le.mpr (hpos p hp))
    · right
      refine ⟨p, hp, hov, by rw [h1]; exact hfst, ?_, ?_⟩
      · rw [← hsq, hsnd]; rfl
      · intro q hq hovq
        have hqf : q ∈ placed.filter (fun r => decide (overlapSpec nb x z r)) :=
          List.mem_filter.mpr ⟨hq, by simpa using hovq⟩
        have hle := elem_le_foldl_max _ PickingOF.floorY q hqf
        calc topSurfaceSpec q ≤ _ := hle
          _ = topSurfaceSpec p := by rw [← hsnd, hsq]

/-- Witness for C4: with no committed placements nothing overlaps, and the
resolver returns the floor base and no support. -/
theorem findTopAt_spec_witness :
    (∀ p ∈ ([] : List PlacedBox), ¬ overlapSpec boxB 0 0 p) ∧
    PickingOF.findTopAt [] 0 0 boxB =
      (none, PickingOF.floorY + boxB.height / 2) :=
  ⟨by simp, (findTopAt_spec [] 0 0 boxB).2.1 (by simp)⟩

/-! ## C2 — place and the preview flag -/

/-- Helper: `PickingOF.placeBox` in the invalid-preview case is the failure
branch of the source verbatim (height check first, then colour message,
then the generic message), with no state change. -/
theorem PickingOF.placeBox_invalid (s : PickingOF.State) (b : Box)
    (hcb : s.currentBox = some b) (hp : s.truckPlaced = true)
    (hv : s.previewValid = false) :
    PickingOF.placeBox s =
      (if PickingOF.maxHeight < s.posY + b.height / 2 then
        (s, { success := false, message := "Caixa excede a altura da caçamba!" })
      else
        (s, { success := false,
              message := (getStackError b
                (PickingOF.findTopAt s.placedBoxes s.posX s.posZ b).1).getD
                "Posicionamento inválido!" })) := by
  simp [PickingOF.placeBox, hcb, hp, hv]

/-- Helper: with a pending box and a placed truck, `PickingOF.placeBox`
succeeds exactly when the preview flag is set. -/
theorem PickingOF.placeBox_success_iff (s : PickingOF.State) (b : Box)
    (hcb : s.currentBox = some b) (hp : s.truckPlaced = true) :
    (PickingOF.placeBox s).2.success = true ↔ s.previewValid = true := by
  cases hv : s.previewValid with
  | true => simp [PickingOF.placeBox, hcb, hp, hv]
  | false =>
    rw [PickingOF.placeBox_invalid s b hcb hp hv]
    split_ifs <;> simp

/-- Helper: the state written by `_updatePreview` when a box is pending and
the truck is placed. -/
theorem PickingOF.updatePreview_eq (s : PickingOF.State) (b : Box) (x z : ℚ)
    (hcb : s.currentBox = some b) (hp : s.truckPlaced = true) :
    PickingOF.updatePreview x z s =
      { s with
          posX := PickingOF.clampX b x,
          posY := (PickingOF.findTopAt s.placedBoxes
            (PickingOF.clampX b x) (PickingOF.clampZ b z) b).2,
          posZ := PickingOF.clampZ b z,
          previewValid := canStack b (PickingOF.findTopAt s.placedBoxes
              (PickingOF.clampX b x) (PickingOF.clampZ b z) b).1 &&
            !(decide ((PickingOF.findTopAt s.placedBoxes
              (PickingOF.clampX b x) (PickingOF.clampZ b z) b).2 +
                b.height / 2 > PickingOF.maxHeight)) } := by
  simp [PickingOF.updatePreview, hcb, hp, PickingOF.clampX, PickingOF.clampZ]

/-- Counterexample to C2: starting from the committed state reached by
`placeTruck` then `generateNewBox` (so no state change afterwards),
`placeBox` without an intervening preview fails with the generic message,
while `placeBox` right after a preview of the same committed state succeeds
— the outcome of `place` is not independent of whether `preview` was
called, because `placeBox` trusts the stale `previewValid` flag instead of
re-deriving validity. -/
theorem place_rederive_counterexample :
    (PickingOF.placeBox ofReadyState).2.success = false ∧
    (PickingOF.placeBox ofReadyState).2.message = "Posicionamento inválido!" ∧
    (PickingOF.updatePreview 0 0 ofReadyState).placedBoxes =
      ofReadyState.placedBoxes ∧
    (PickingOF.placeBox (PickingOF.updatePreview 0 0 ofReadyState)).2.success =
      true := by
  decide

/-- C2 as amended: `placeBox` does not re-derive validity; it trusts the
preview flag.  (i) With `previewValid` set it commits at the previewed mesh
coordinates without re-checking.  (ii) With `previewValid` unset it always
fails, leaving the state unchanged, re-deriving the support only to choose
the failure message: the height-limit message when the mesh's resting top
exceeds `maxHeight`, else the validator's message, else the generic
`"Posicionamento inválido!"`.  (iii) Right after `updatePreview` at
`(x, z)`, `placeBox` succeeds iff the stacking rule and the height bound
hold at the clamped footprint against the current committed state. -/
theorem place_trusts_preview_flag :
    ∀ (s : PickingOF.State) (b : Box),
      s.currentBox = some b → s.truckPlaced = true →
      ((s.previewValid = true →
        PickingOF.placeBox s =
          ({ s with
              placedBoxes := s.placedBoxes ++ [⟨b, s.posX, s.posY, s.posZ⟩],
              boxCount := s.boxCount + 1,
              currentBox := none },
           { success := true,
             message := "Caixa carregada! (Total: " ++
               toString (s.boxCount + 1) ++ ")" })) ∧
      (s.previewValid = false →
        (PickingOF.placeBox s).1 = s ∧
        (PickingOF.placeBox s).2.success = false ∧
        (PickingOF.placeBox s).2.message =
          (if PickingOF.maxHeight < s.posY + b.height / 2 then
            "Caixa excede a altura da caçamba!"
          else
            (getStackError b
              (PickingOF.findTopAt s.placedBoxes s.posX s.posZ b).1).getD
              "Posicionamento inválido!")) ∧
      (∀ x z : ℚ,
        ((PickingOF.placeBox (PickingOF.updatePreview x z s)).2.success = true ↔
          (canStack b (PickingOF.findTopAt s.placedBoxes
              (PickingOF.clampX b x) (PickingOF.clampZ b z) b).1 = true ∧
            (PickingOF.findTopAt s.placedBoxes
              (PickingOF.clampX b x) (PickingOF.clampZ b z) b).2 + b.height / 2 ≤
              PickingOF.maxHeight)))) := by
  intro s b hcb hp
  refine ⟨?_, ?_, ?_⟩
  · intro hv
    simp [PickingOF.placeBox, hcb, hp, hv]
  · intro hv
    rw [PickingOF.placeBox_invalid s b hcb hp hv]
    split_ifs <;> exact ⟨rfl, rfl, rfl⟩
  · intro x z
    have hcb' : (PickingOF.updatePreview x z s).currentBox = some b := by
      rw [PickingOF.updatePreview_eq s b x z hcb hp]; exact hcb
    have hp' : (PickingOF.updatePreview x z s).truckPlaced = true := by
      rw [PickingOF.updatePreview_eq s b x z hcb hp]; exact hp
    rw [PickingOF.placeBox_success_iff _ b hcb' hp',
      PickingOF.updatePreview_eq s b x z hcb hp]
    show (canStack b _ && !(decide _)) = true ↔ _
    rw [Bool.and_eq_true, Bool.not_eq_true', decide_eq_false_iff_not, not_lt]

/-- Witness for C2 as amended: the never-previewed pending box is rejected
with the generic message even though the empty truck would accept it. -/
theorem place_trusts_preview_flag_witness :
    (PickingOF.placeBox ofReadyState).1 = ofReadyState ∧
    (PickingOF.placeBox ofReadyState).2.success = false := by
  have h := place_trusts_preview_flag ofReadyState boxG (by decide) (by decide)
  exact ⟨(h.2.1 (by decide)).1, (h.2.1 (by decide)).2.1⟩

/-! ## C7 — truck-variant preview, bounds clamp and height bound -/

/-- C7: in the open-footprint truck engine, `_updatePreview` clamps the
candidate's centre on each axis so its full footprint stays within the
usable bounds, and sets the preview flag iff `canStack` accepts the resolved
support and the resting top does not exceed `maxHeight`; a placement whose
resting top exceeds `maxHeight` is rejected by `placeBox` with the
height-limit message and no mutation, while a clamped out-of-bounds aim is
not rejected (a valid preview commits).  In the grid truck engine,
`placeBox` rejects a column whose resting top would exceed `truckHeight`
with the height-limit message and no mutation. -/
theorem preview_clamp_height_spec :
    (∀ (s : PickingOF.State) (b : Box) (x z : ℚ),
      s.currentBox = some b → s.truckPlaced = true →
      b.width ≤ 2 * PickingOF.innerHalfX → b.depth ≤ 2 * PickingOF.innerHalfZ →
      ((PickingOF.updatePreview x z s).posX = PickingOF.clampX b x ∧
       (PickingOF.updatePreview x z s).posZ = PickingOF.clampZ b z ∧
       (-PickingOF.innerHalfX + b.width / 2 ≤ PickingOF.clampX b x ∧
         PickingOF.clampX b x ≤ PickingOF.innerHalfX - b.width / 2) ∧
       (-PickingOF.innerHalfZ + b.depth / 2 ≤ PickingOF.clampZ b z ∧
         PickingOF.clampZ b z ≤ PickingOF.innerHalfZ - b.depth / 2) ∧
       ((PickingOF.updatePreview x z s).previewValid = true ↔
         (canStack b (PickingOF.findTopAt s.placedBoxes
             (PickingOF.clampX b x) (PickingOF.clampZ b z) b).1 = true ∧
          (PickingOF.findTopAt s.placedBoxes
             (PickingOF.clampX b x) (PickingOF.clampZ b z) b).2 + b.height / 2 ≤
            PickingOF.maxHeight)) ∧
       (PickingOF.updatePreview x z s).placedBoxes = s.placedBoxes ∧
       (PickingOF.maxHeight <
           (PickingOF.findTopAt s.placedBoxes
             (PickingOF.clampX b x) (PickingOF.clampZ b z) b).2 + b.height / 2 →
         (PickingOF.placeBox (PickingOF.updatePreview x z s)).1 =
           PickingOF.updatePreview x z s ∧
         (PickingOF.placeBox (PickingOF.updatePreview x z s)).2 =
           { success := false, message := "Caixa excede a altura da caçamba!" }) ∧
       ((PickingOF.updatePreview x z s).previewValid = true →
         (PickingOF.placeBox (PickingOF.updatePreview x z s)).2.success = true))) ∧
    (∀ (s : PickingGrid.State) (b : Box),
      s.currentBox = some b → s.truckPlaced = true →
      getStackError b (getTopBox (s.stacks'.getD s.selectedStackIndex [])) = none →
      PickingGrid.truckHeight <
        getStackY b (s.stacks'.getD s.selectedStackIndex [])
          PickingGrid.truckWallThickness + b.height / 2 →
      PickingGrid.placeBox s =
        (s, { success := false,
              message := "Caixa excede a altura da caçamba! Escolha outra coluna." })) := by
  constructor
  · intro s b x z hcb hp hw hd
    have hup := PickingOF.updatePreview_eq s b x z hcb hp
    have hcb' : (PickingOF.updatePreview x z s).currentBox = some b := by
      rw [hup]; exact hcb
    have hp' : (PickingOF.updatePreview x z s).truckPlaced = true := by
      rw [hup]; exact hp
    have hlohiX : -PickingOF.innerHalfX + b.width / 2 ≤
        PickingOF.innerHalfX - b.width / 2 := by
      rw [PickingOF.innerHalfX] at hw ⊢; linarith
    have hlohiZ : -PickingOF.innerHalfZ + b.depth / 2 ≤
        PickingOF.innerHalfZ - b.depth / 2 := by
      rw [PickingOF.innerHalfZ] at hd ⊢; linarith
    refine ⟨by rw [hup], by rw [hup], ⟨le_max_left _ _, ?_⟩, ⟨le_max_left _ _, ?_⟩,
      ?_, by rw [hup], ?_, ?_⟩
    · exact max_le hlohiX (min_le_left _ _)
    · exact max_le hlohiZ (min_le_left _ _)
    · rw [hup]
      show (canStack b _ && !(decide _)) = true ↔ _
      rw [Bool.and_eq_true, Bool.not_eq_true', decide_eq_false_iff_not, not_lt]
    · intro hex
      have hv0 : (PickingOF.updatePreview x z s).previewValid = false := by
        rw [hup]
        show (canStack b _ && !(decide _)) = false
        rw [decide_eq_true (by exact hex), Bool.not_true, Bool.and_false]
      have hpy : (PickingOF.updatePreview x z s).posY =
          (PickingOF.findTopAt s.placedBoxes
            (PickingOF.clampX b x) (PickingOF.clampZ b z) b).2 := by
        rw [hup]
      have hinv := PickingOF.placeBox_invalid _ b hcb' hp' hv0
      rw [hinv, hpy, if_pos hex]
      exact ⟨rfl, rfl⟩
    · intro hv
      exact (PickingOF.placeBox_success_iff _ b hcb' hp').mpr hv
  · intro s b hcb hp he hh
    rw [List.getD_eq_getElem?_getD] at he hh
    simp [PickingGrid.placeBox, hcb, hp, he, hh]

/-- Witness for C7: an aim far outside the bounds is clamped to the usable
edge and, being otherwise valid, the subsequent `placeBox` succeeds. -/
theorem preview_clamp_height_spec_witness :
    (PickingOF.updatePreview 100 0 ofReadyState).posX = PickingOF.clampX boxG 100 ∧
    PickingOF.clampX boxG 100 ≤ PickingOF.innerHalfX - boxG.width / 2 ∧
    (PickingOF.placeBox (PickingOF.updatePreview 100 0 ofReadyState)).2.success =
      true := by
  have h := preview_clamp_height_spec.1 ofReadyState boxG 100 0 (by decide) (by decide)
    (by decide) (by decide)
  exact ⟨h.1, h.2.2.1.2, h.2.2.2.2.2.2.2 (by decide)⟩

/-- Witness for C8 as amended, at the two concrete sequencing states. -/
theorem place_sequencing_guard_witness :
    Cubagem.placeBox Cubagem.initState =
      (Cubagem.initState, { success := false, message := "Gere uma caixa primeiro!" }) ∧
    Cubagem.placeBox cubagemPlacedState =
      (cubagemPlacedState, { success := false, message := "Gere uma caixa primeiro!" }) :=
  ⟨place_sequencing_guard.1 Cubagem.initState (Or.inl rfl),
   place_sequencing_guard.1 cubagemPlacedState (Or.inl rfl)⟩

end Trabalho2
